import Mathlib

/-!
Shallow embedding of the retinaface-js detection pipeline (src/index.ts).

Numbers are modelled as rationals.  The two transcendental library
functions the source calls (`Math.sqrt` in `generateAnchors`, `Math.exp`
in `generateProposals`) are passed in as explicit function parameters
`jsSqrt`/`jsExp`, mirroring the source's dependence on the host math
library.  Out-of-range typed-array reads are modelled by `List.getD`
with default `0`.
-/

/-- A rectangle `[x0, y0, x1, y1]` as stored in `FaceObject.rect`. -/
structure Rect where
  x0 : ℚ
  y0 : ℚ
  x1 : ℚ
  y1 : ℚ
  deriving DecidableEq

/-- The `FaceObject` interface of src/index.ts: rect, five landmarks, prob. -/
structure FaceObject where
  rect : Rect
  landmarks : List (ℚ × ℚ)
  prob : ℚ
  deriving DecidableEq

/-- Default used for (never-taken) out-of-range list reads of faces. -/
def dummyFace : FaceObject := ⟨⟨0, 0, 0, 0⟩, [], 0⟩

/-- A tensor as consumed by the decoder: its dims and its flat data. -/
structure Tensor where
  dims : List ℕ
  data : List ℚ
  deriving DecidableEq

/-- `generateAnchors` of src/index.ts (lines 9-35).  `jsSqrt` models
`Math.sqrt`; `round` is Mathlib's `⌊x + 1/2⌋`, matching `Math.round`. -/
def generateAnchors (jsSqrt : ℚ → ℚ) (baseSize : ℚ) (ratios scales : List ℚ) :
    List Rect :=
  let numScale := scales.length
  let cx := baseSize * (1/2)
  let cy := baseSize * (1/2)
  (List.range ratios.length).flatMap (fun i =>
    let ar := ratios.getD i 0
    let rW : ℤ := round (baseSize / jsSqrt ar)
    let rH : ℤ := round ((rW : ℚ) * ar)
    (List.range numScale).map (fun j =>
      let scale := scales.getD j 0
      let rsW := (rW : ℚ) * scale * (1/2)
      let rsH := (rH : ℚ) * scale * (1/2)
      ⟨cx - rsW, cy - rsH, cx + rsW, cy + rsH⟩))

/-- `generateProposals` of src/index.ts (lines 37-114).  `jsExp` models
`Math.exp`.  The spatial position of a cell `(i, j)` enters through
`anchorX = anchor.x0 + featStride * j`, `anchorY = anchor.y0 + featStride * i`,
the closed form of the source's `anchorX += featStride` /
`anchorY += featStride` accumulators. -/
def generateProposals (jsExp : ℚ → ℚ) (anchors : List Rect) (featStride : ℚ)
    (scoreT bboxT landmarkT : Tensor) (probThreshold : ℚ) : List FaceObject :=
  let w := bboxT.dims.getD 3 0
  let h := bboxT.dims.getD 2 0
  let offset := w * h
  let score := scoreT.data
  let bbox := bboxT.data
  let landmark := landmarkT.data
  let numAnchors := anchors.length
  (List.range numAnchors).flatMap (fun q =>
    let anchor := anchors.getD q ⟨0, 0, 0, 0⟩
    let scoreOffset := (q + numAnchors) * offset
    let bboxOffset := q * 4 * offset
    let landmarkOffset := q * 10 * offset
    let anchorW := anchor.x1 - anchor.x0
    let anchorH := anchor.y1 - anchor.y0
    (List.range h).flatMap (fun i =>
      (List.range w).flatMap (fun j =>
        let index := i * w + j
        let prob := score.getD (scoreOffset + index) 0
        if probThreshold ≤ prob then
          let anchorX := anchor.x0 + featStride * (j : ℚ)
          let anchorY := anchor.y0 + featStride * (i : ℚ)
          let dx := bbox.getD (bboxOffset + index + offset * 0) 0
          let dy := bbox.getD (bboxOffset + index + offset * 1) 0
          let dw := bbox.getD (bboxOffset + index + offset * 2) 0
          let dh := bbox.getD (bboxOffset + index + offset * 3) 0
          let cx := anchorX + anchorW * (1/2)
          let cy := anchorY + anchorH * (1/2)
          let pbCx := cx + anchorW * dx
          let pbCy := cy + anchorH * dy
          let pbW := anchorW * jsExp dw
          let pbH := anchorH * jsExp dh
          let x0 := pbCx - pbW * (1/2)
          let y0 := pbCy - pbH * (1/2)
          let x1 := pbCx + pbW * (1/2)
          let y1 := pbCy + pbH * (1/2)
          [{ rect := ⟨x0, y0, x1, y1⟩
             landmarks :=
               [(cx + (anchorW + 1) * landmark.getD (landmarkOffset + index + offset * 0) 0,
                 cy + (anchorH + 1) * landmark.getD (landmarkOffset + index + offset * 1) 0),
                (cx + (anchorW + 1) * landmark.getD (landmarkOffset + index + offset * 2) 0,
                 cy + (anchorH + 1) * landmark.getD (landmarkOffset + index + offset * 3) 0),
                (cx + (anchorW + 1) * landmark.getD (landmarkOffset + index + offset * 4) 0,
                 cy + (anchorH + 1) * landmark.getD (landmarkOffset + index + offset * 5) 0),
                (cx + (anchorW + 1) * landmark.getD (landmarkOffset + index + offset * 6) 0,
                 cy + (anchorH + 1) * landmark.getD (landmarkOffset + index + offset * 7) 0),
                (cx + (anchorW + 1) * landmark.getD (landmarkOffset + index + offset * 8) 0,
                 cy + (anchorH + 1) * landmark.getD (landmarkOffset + index + offset * 9) 0)]
             prob := prob }]
        else [])))

/-- `processStride` of src/index.ts (lines 116-126): look the stride's three
output tensors up by name and decode them; the result is appended to the
aggregate proposal list by `detect`. -/
def processStride (jsExp jsSqrt : ℚ → ℚ) (results : String → Tensor)
    (probThreshold : ℚ) (stride : ℕ) (scales : List ℚ) : List FaceObject :=
  let score := results ("face_rpn_cls_prob_reshape_stride" ++ toString stride)
  let bbox := results ("face_rpn_bbox_pred_stride" ++ toString stride)
  let landmark := results ("face_rpn_landmark_pred_stride" ++ toString stride)
  let baseSize : ℚ := 16
  let featStride : ℚ := (stride : ℚ)
  let anchors := generateAnchors jsSqrt baseSize [1] scales
  generateProposals jsExp anchors featStride score bbox landmark probThreshold

/-- Clamped intersection area of the inner IoU computation
(src/index.ts line 142). -/
def interArea (a b : Rect) : ℚ :=
  max 0 (min a.x1 b.x1 - max a.x0 b.x0) * max 0 (min a.y1 b.y1 - max a.y0 b.y0)

/-- Unclamped rect area, as precomputed into `areas` (src/index.ts line 133). -/
def rectArea (r : Rect) : ℚ :=
  (r.x1 - r.x0) * (r.y1 - r.y0)

/-- The IoU quotient `interArea / unionArea` the suppression loop compares
against the threshold (src/index.ts lines 142-144), for the candidates at
indices `i` and `j`.  Rational division is total with `x / 0 = 0`. -/
def iou (faceObjects : List FaceObject) (i j : ℕ) : ℚ :=
  let a := (faceObjects.getD i dummyFace).rect
  let b := (faceObjects.getD j dummyFace).rect
  let inter := interArea a b
  inter / (rectArea a + rectArea b - inter)

/-- The `keep` flag for candidate `i` against the already-picked list
(src/index.ts lines 138-145). -/
def nmsKeep (faceObjects : List FaceObject) (nmsThreshold : ℚ)
    (picked : List ℕ) (i : ℕ) : Bool :=
  picked.all (fun j => !(nmsThreshold < iou faceObjects i j))

/-- The state of `picked` after the outer suppression loop has processed
candidates `0, …, k-1` (src/index.ts lines 135-148). -/
def nmsAux (faceObjects : List FaceObject) (nmsThreshold : ℚ) : ℕ → List ℕ
  | 0 => []
  | k + 1 =>
    let picked := nmsAux faceObjects nmsThreshold k
    if nmsKeep faceObjects nmsThreshold picked k then picked ++ [k] else picked

/-- `nmsSortedBboxes` of src/index.ts (lines 128-151). -/
def nmsSortedBboxes (faceObjects : List FaceObject) (nmsThreshold : ℚ) : List ℕ :=
  nmsAux faceObjects nmsThreshold faceObjects.length

/-- Insert a face into a prob-descending list, after earlier-or-equal probs:
together with `sortByProbDesc` this is the stable descending sort that
`faceProposals.sort((a, b) => b.prob - a.prob)` performs (src/index.ts
line 188). -/
def insertDesc (f : FaceObject) : List FaceObject → List FaceObject
  | [] => [f]
  | g :: gs => if g.prob < f.prob then f :: g :: gs else g :: insertDesc f gs

/-- Stable sort by `prob` descending (src/index.ts line 188). -/
def sortByProbDesc : List FaceObject → List FaceObject
  | [] => []
  | f :: fs => insertDesc f (sortByProbDesc fs)

/-- The `ImageData` consumed by `detect`: dimensions plus flat RGBA data. -/
structure ImageData where
  width : ℕ
  height : ℕ
  data : List ℚ

/-- The `Retinaface` class state: the inference session (modelled as a
function from the input tensor to the name-keyed output-tensor map) and
the configured network input resolution (source defaults: 512×512). -/
structure Retinaface where
  session : Tensor → (String → Tensor)
  width : ℕ := 512
  height : ℕ := 512

/-- The NCHW conversion of src/index.ts lines 172-179: for each pixel `i`,
`data[i] = rgba[4i]`, `data[i+len] = rgba[4i+1]`, `data[i+2len] = rgba[4i+2]`
(plane-major R, G, B; alpha dropped). -/
def nchwData (img : ImageData) (width height : ℕ) : List ℚ :=
  let len := width * height
  (List.range len).map (fun i => img.data.getD (i * 4) 0)
    ++ (List.range len).map (fun i => img.data.getD (i * 4 + 1) 0)
    ++ (List.range len).map (fun i => img.data.getD (i * 4 + 2) 0)

/-- The per-candidate rescale step of src/index.ts lines 192-206: each rect
coordinate is clamped to `[0, dimension-1]` and divided by `scale`; the
landmarks are divided by `scale` without clamping; `prob` is kept. -/
def rescaleFace (width height : ℕ) (scale : ℚ) (obj : FaceObject) : FaceObject :=
  { rect :=
      ⟨max (min obj.rect.x0 ((width : ℚ) - 1)) 0 / scale,
       max (min obj.rect.y0 ((height : ℚ) - 1)) 0 / scale,
       max (min obj.rect.x1 ((width : ℚ) - 1)) 0 / scale,
       max (min obj.rect.y1 ((height : ℚ) - 1)) 0 / scale⟩
    landmarks := obj.landmarks.map (fun landmark => (landmark.1 / scale, landmark.2 / scale))
    prob := obj.prob }

/-- The aggregate proposal list `detect` builds (src/index.ts lines 181-186):
the session is run on the NCHW tensor and the three stride configurations
`(32, [32,16])`, `(16, [8,4])`, `(8, [2,1])` are decoded and concatenated. -/
def detectProposals (r : Retinaface) (jsExp jsSqrt : ℚ → ℚ) (imageData : ImageData)
    (probThreshold : ℚ) : List FaceObject :=
  let data := nchwData imageData r.width r.height
  let results := r.session ⟨[1, 3, r.height, r.width], data⟩
  processStride jsExp jsSqrt results probThreshold 32 [32, 16]
    ++ processStride jsExp jsSqrt results probThreshold 16 [8, 4]
    ++ processStride jsExp jsSqrt results probThreshold 8 [2, 1]

/-- The post-check pipeline of `detect` (src/index.ts lines 181-206):
aggregate, sort by prob descending, suppress, rescale the picked
candidates. -/
def detectBody (r : Retinaface) (jsExp jsSqrt : ℚ → ℚ) (imageData : ImageData)
    (scale probThreshold nmsThreshold : ℚ) : List FaceObject :=
  let sorted := sortByProbDesc (detectProposals r jsExp jsSqrt imageData probThreshold)
  let picked := nmsSortedBboxes sorted nmsThreshold
  picked.map (fun i => rescaleFace r.width r.height scale (sorted.getD i dummyFace))

/-- `Retinaface.detect` of src/index.ts (lines 167-207).  The thrown
precondition error is modelled as `Except.error`; everything after the
dimension check is total. -/
def Retinaface.detect (r : Retinaface) (jsExp jsSqrt : ℚ → ℚ) (imageData : ImageData)
    (scale probThreshold nmsThreshold : ℚ) : Except String (List FaceObject) :=
  if imageData.width ≠ r.width ∨ imageData.height ≠ r.height then
    Except.error ("image should be " ++ toString r.width ++ "x" ++ toString r.height)
  else
    Except.ok (detectBody r jsExp jsSqrt imageData scale probThreshold nmsThreshold)

/-- Modelled from the spec: the source decoder has no shape check, so this
checked variant follows §4.2/§7 of the spec — "fail fast with a descriptive
error if buffer length does not match `numAnchors*(channels)*w*h`" (score has
2 channels per anchor, bbox 4, landmark 10) — and otherwise decodes as the
source does.  It exists to compare the claimed fail-fast behaviour with the
source's actual behaviour. -/
def generateProposalsChecked (jsExp : ℚ → ℚ) (anchors : List Rect) (featStride : ℚ)
    (scoreT bboxT landmarkT : Tensor) (probThreshold : ℚ) :
    Except String (List FaceObject) :=
  let w := bboxT.dims.getD 3 0
  let h := bboxT.dims.getD 2 0
  let numAnchors := anchors.length
  if scoreT.data.length = numAnchors * 2 * (w * h)
      ∧ bboxT.data.length = numAnchors * 4 * (w * h)
      ∧ landmarkT.data.length = numAnchors * 10 * (w * h) then
    Except.ok (generateProposals jsExp anchors featStride scoreT bboxT landmarkT probThreshold)
  else
    Except.error "output buffer length does not match numAnchors*channels*w*h"

/-! Concrete inputs used to instantiate the theorems below.  The network
resolution is set to 1×1 so the runs stay small; the stride-32 tensors
describe a 1×1 grid with two anchors, and the stride-16/8 tensors are
empty, which makes their grids 0×0. -/

/-- Session whose stride-32 face scores are `v` and `0`; all other names get
the empty tensor (their grids are then 0×0). -/
def genSession (v : ℚ) : Tensor → String → Tensor := fun _ name =>
  if name = "face_rpn_cls_prob_reshape_stride32" then ⟨[1, 4, 1, 1], [0, 0, v, 0]⟩
  else if name = "face_rpn_bbox_pred_stride32" then ⟨[1, 8, 1, 1], List.replicate 8 0⟩
  else if name = "face_rpn_landmark_pred_stride32" then ⟨[1, 20, 1, 1], List.replicate 20 0⟩
  else ⟨[], []⟩

/-- Session with an in-range face score `9/10`. -/
def okSession : Tensor → String → Tensor := genSession (9/10)

/-- Session with a face score `2`, a value above `1`. -/
def bigSession : Tensor → String → Tensor := genSession 2

/-- A detector configured for 1×1 input over `okSession`. -/
def rOk : Retinaface := ⟨okSession, 1, 1⟩

/-- A detector configured for 1×1 input over `bigSession`. -/
def rBig : Retinaface := ⟨bigSession, 1, 1⟩

/-- A 1×1 RGBA image. -/
def imgOk : ImageData := ⟨1, 1, [0, 0, 0, 0]⟩

/-- A 2×2 image, mismatching the 1×1 network resolution. -/
def imgBad : ImageData := ⟨2, 2, List.replicate 16 0⟩

/-- The face `rOk.detect` returns on `imgOk`. -/
def okFace : FaceObject :=
  ⟨⟨0, 0, 0, 0⟩, [(8, 8), (8, 8), (8, 8), (8, 8), (8, 8)], 9/10⟩

/-- The face `rBig.detect` returns on `imgOk`: its prob is `2 > 1`. -/
def bigFace : FaceObject :=
  ⟨⟨0, 0, 0, 0⟩, [(8, 8), (8, 8), (8, 8), (8, 8), (8, 8)], 2⟩

/-- Two disjoint well-formed candidates for the suppression witnesses. -/
def faceA : FaceObject := ⟨⟨0, 0, 1, 1⟩, [], 9/10⟩

/-- Second disjoint candidate, lower prob. -/
def faceB : FaceObject := ⟨⟨2, 2, 3, 3⟩, [], 1/2⟩

/-! Generic list lemmas about `getD`, `flatMap` and the stable sort. -/

theorem getD_append_ge {α : Type} (l l' : List α) (d : α) (n : ℕ) (h : l.length ≤ n) :
    (l ++ l').getD n d = l'.getD (n - l.length) d := by
  simp [List.getD_eq_getElem?_getD, List.getElem?_append, Nat.not_lt.mpr h]

theorem getD_map_of_lt {α β : Type} (f : α → β) (l : List α) (n : ℕ) (h : n < l.length)
    (d : β) (d' : α) : (l.map f).getD n d = f (l.getD n d') := by
  simp [List.getD_eq_getElem?_getD, List.getElem?_map, List.getElem?_eq_getElem h]

theorem getD_range_of_lt {m n : ℕ} (h : n < m) (d : ℕ) : (List.range m).getD n d = n := by
  simp [List.getD_eq_getElem?_getD, List.getElem?_range h]

theorem getD_replicate_of_lt {α : Type} {a : α} {m n : ℕ} (h : n < m) (d : α) :
    (List.replicate m a).getD n d = a := by
  simp [List.getD_eq_getElem?_getD, List.getElem?_replicate, h]

theorem getD_mem_of_lt {α : Type} {l : List α} {n : ℕ} (h : n < l.length) (d : α) :
    l.getD n d ∈ l := by
  rw [List.getD_eq_getElem?_getD, List.getElem?_eq_getElem h]
  exact List.getElem_mem h

theorem getD_eq_default_of_ge {α : Type} {l : List α} {n : ℕ} (h : l.length ≤ n) (d : α) :
    l.getD n d = d := by
  simp [List.getD_eq_getElem?_getD, List.getElem?_eq_none h]

theorem flatMap_sublist {α β : Type} (l : List α) (f g : α → List β)
    (h : ∀ a ∈ l, (f a).Sublist (g a)) : (l.flatMap f).Sublist (l.flatMap g) := by
  induction l with
  | nil => simp
  | cons x xs ih =>
    simp only [List.flatMap_cons]
    exact (h x (by simp)).append (ih fun a ha => h a (by simp [ha]))

theorem flatMap_eq_nil {α β : Type} (l : List α) (f : α → List β)
    (h : ∀ a ∈ l, f a = []) : l.flatMap f = [] := by
  induction l with
  | nil => simp
  | cons x xs ih =>
    simp only [List.flatMap_cons, h x (by simp)]
    exact ih fun a ha => h a (by simp [ha])

theorem length_flatMap_range_map {α : Type} (R S : ℕ) (f : ℕ → ℕ → α) :
    ((List.range R).flatMap (fun i => (List.range S).map (f i))).length = R * S := by
  induction R with
  | zero => simp
  | succ R ih =>
    rw [List.range_succ, List.flatMap_append]
    simp [ih, Nat.succ_mul]

theorem getD_flatMap_range_map {α : Type} {R S i j : ℕ} (f : ℕ → ℕ → α)
    (hi : i < R) (hj : j < S) (d : α) :
    ((List.range R).flatMap (fun i => (List.range S).map (f i))).getD (i * S + j) d
      = f i j := by
  induction R with
  | zero => omega
  | succ R ih =>
    rw [List.range_succ, List.flatMap_append]
    rcases Nat.lt_or_ge i R with h | h
    · have hlt : i * S + j < R * S := by
        have h1 : i * S + j < (i + 1) * S := by rw [Nat.succ_mul]; omega
        exact Nat.lt_of_lt_of_le h1 (Nat.mul_le_mul_right S (by omega))
      rw [List.getD_append _ _ d _ (by rw [length_flatMap_range_map]; exact hlt)]
      exact ih h
    · have hiR : i = R := by omega
      subst hiR
      rw [getD_append_ge _ _ d _ (by rw [length_flatMap_range_map]; omega)]
      rw [length_flatMap_range_map, Nat.add_sub_cancel_left]
      simp only [List.flatMap_cons, List.flatMap_nil, List.append_nil]
      rw [getD_map_of_lt _ _ _ (by simpa using hj) _ 0, getD_range_of_lt hj]

theorem mem_insertDesc {f a : FaceObject} {l : List FaceObject} :
    a ∈ insertDesc f l ↔ a = f ∨ a ∈ l := by
  induction l with
  | nil => simp [insertDesc]
  | cons g gs ih =>
    simp only [insertDesc]
    split
    · simp
    · simp only [List.mem_cons, ih]
      tauto

theorem mem_sortByProbDesc {a : FaceObject} {l : List FaceObject} :
    a ∈ sortByProbDesc l ↔ a ∈ l := by
  induction l with
  | nil => simp [sortByProbDesc]
  | cons f fs ih => simp [sortByProbDesc, mem_insertDesc, ih]

/-! Lemmas about the suppression engine. -/

theorem mem_nmsAux_lt {faces : List FaceObject} {t : ℚ} {k j : ℕ}
    (h : j ∈ nmsAux faces t k) : j < k := by
  induction k with
  | zero => simp [nmsAux] at h
  | succ k ih =>
    simp only [nmsAux] at h
    split at h
    · rcases List.mem_append.mp h with h' | h'
      · exact Nat.lt_succ_of_lt (ih h')
      · simp at h'
        omega
    · exact Nat.lt_succ_of_lt (ih h)

theorem nmsAux_mono (faces : List FaceObject) (t : ℚ) {k m : ℕ} (h : k ≤ m) :
    ∃ u, nmsAux faces t m = nmsAux faces t k ++ u := by
  induction m, h using Nat.le_induction with
  | base => exact ⟨[], by simp⟩
  | succ m hm ih =>
    obtain ⟨u, hu⟩ := ih
    simp only [nmsAux]
    split
    · exact ⟨u ++ [m], by simp [hu]⟩
    · exact ⟨u, hu⟩

theorem mem_nmsAux_of_le {faces : List FaceObject} {t : ℚ} {k m j : ℕ}
    (h : j ∈ nmsAux faces t k) (hkm : k ≤ m) : j ∈ nmsAux faces t m := by
  obtain ⟨u, hu⟩ := nmsAux_mono faces t hkm
  rw [hu]
  exact List.mem_append.mpr (Or.inl h)

theorem mem_nmsSortedBboxes_lt {faces : List FaceObject} {t : ℚ} {j : ℕ}
    (h : j ∈ nmsSortedBboxes faces t) : j < faces.length :=
  mem_nmsAux_lt h

theorem interArea_comm (a b : Rect) : interArea a b = interArea b a := by
  simp [interArea, min_comm, max_comm]

theorem iou_comm (faces : List FaceObject) (i j : ℕ) :
    iou faces i j = iou faces j i := by
  simp only [iou]
  rw [interArea_comm, add_comm]

theorem nmsAux_guard (faces : List FaceObject) (t : ℚ) :
    ∀ s k j, j < k → k < (nmsAux faces t s).length →
      ¬ t < iou faces ((nmsAux faces t s).getD k 0) ((nmsAux faces t s).getD j 0) := by
  intro s
  induction s with
  | zero => intro k j _ hk; simp [nmsAux] at hk
  | succ s ih =>
    intro k j hjk hk
    by_cases hkeep : nmsKeep faces t (nmsAux faces t s) s = true
    · have hs : nmsAux faces t (s + 1) = nmsAux faces t s ++ [s] := by
        simp [nmsAux, hkeep]
      rw [hs] at hk ⊢
      simp only [List.length_append, List.length_cons, List.length_nil] at hk
      rcases Nat.lt_or_ge k (nmsAux faces t s).length with hk2 | hk2
      · rw [List.getD_append _ _ _ _ hk2, List.getD_append _ _ _ _ (by omega)]
        exact ih k j hjk hk2
      · have hkl : k = (nmsAux faces t s).length := by omega
        subst hkl
        rw [getD_append_ge _ _ _ _ (le_refl _), Nat.sub_self]
        rw [List.getD_append _ _ _ _ (by omega)]
        have hmem := getD_mem_of_lt (l := nmsAux faces t s) (n := j) (by omega) 0
        have hall := List.all_eq_true.mp hkeep _ hmem
        simpa [List.getD] using hall
    · have hs : nmsAux faces t (s + 1) = nmsAux faces t s := by
        simp [nmsAux, hkeep]
      rw [hs] at hk ⊢
      exact ih k j hjk hk

theorem nms_pairwise (faces : List FaceObject) (t : ℚ) {i j : ℕ}
    (hi : i ∈ nmsSortedBboxes faces t) (hj : j ∈ nmsSortedBboxes faces t)
    (hij : i ≠ j) : iou faces i j ≤ t := by
  unfold nmsSortedBboxes at hi hj
  obtain ⟨a, ha, hga⟩ := List.mem_iff_getElem.mp hi
  obtain ⟨b, hb, hgb⟩ := List.mem_iff_getElem.mp hj
  have hgda : (nmsAux faces t faces.length).getD a 0 = i := by
    rw [List.getD_eq_getElem?_getD, List.getElem?_eq_getElem ha]
    simpa using hga
  have hgdb : (nmsAux faces t faces.length).getD b 0 = j := by
    rw [List.getD_eq_getElem?_getD, List.getElem?_eq_getElem hb]
    simpa using hgb
  rcases lt_trichotomy a b with hab | hab | hab
  · have := nmsAux_guard faces t faces.length b a hab hb
    rw [hgda, hgdb] at this
    rw [iou_comm]
    exact not_lt.mp this
  · exact absurd (hga.symm.trans (hab ▸ hgb)) hij
  · have := nmsAux_guard faces t faces.length a b hab ha
    rw [hgda, hgdb] at this
    exact not_lt.mp this

/-- C1: for every candidate list whose rects are well-formed (non-negative
width and height) and every nmsThreshold, any two distinct candidates whose
indices are both returned by the suppression engine have
intersection-over-union at most nmsThreshold. -/
theorem C1_nms_no_overlap (faces : List FaceObject) (nmsThreshold : ℚ)
    (hwf : ∀ f ∈ faces, f.rect.x0 ≤ f.rect.x1 ∧ f.rect.y0 ≤ f.rect.y1)
    (i j : ℕ) (hi : i ∈ nmsSortedBboxes faces nmsThreshold)
    (hj : j ∈ nmsSortedBboxes faces nmsThreshold) (hij : i ≠ j) :
    iou faces i j ≤ nmsThreshold :=
  nms_pairwise faces nmsThreshold hi hj hij

/-- C1 witness: both disjoint unit squares are picked at threshold 1/2 and
their IoU is at most 1/2. -/
theorem C1_witness :
    (∀ f ∈ [faceA, faceB], f.rect.x0 ≤ f.rect.x1 ∧ f.rect.y0 ≤ f.rect.y1)
    ∧ 0 ∈ nmsSortedBboxes [faceA, faceB] (1/2)
    ∧ 1 ∈ nmsSortedBboxes [faceA, faceB] (1/2)
    ∧ iou [faceA, faceB] 0 1 ≤ 1/2 := by
  have hwf : ∀ f ∈ [faceA, faceB], f.rect.x0 ≤ f.rect.x1 ∧ f.rect.y0 ≤ f.rect.y1 := by
    norm_num [faceA, faceB]
  have hnms : nmsSortedBboxes [faceA, faceB] (1/2) = [0, 1] := by
    norm_num [nmsSortedBboxes, nmsAux, nmsKeep, iou, interArea, rectArea,
      dummyFace, faceA, faceB]
  have h0 : 0 ∈ nmsSortedBboxes [faceA, faceB] (1/2) := by rw [hnms]; simp
  have h1 : 1 ∈ nmsSortedBboxes [faceA, faceB] (1/2) := by rw [hnms]; simp
  exact ⟨hwf, h0, h1,
    C1_nms_no_overlap [faceA, faceB] (1/2) hwf 0 1 h0 h1 (by norm_num)⟩

/-- Running the suppression loop over the faces its own output selects
re-picks every index in order. -/
theorem nmsAux_self_eval (faces : List FaceObject) (t : ℚ) :
    ∀ k, k ≤ (nmsAux faces t faces.length).length →
      nmsAux ((nmsAux faces t faces.length).map (fun i => faces.getD i dummyFace)) t k
        = List.range k := by
  intro k
  induction k with
  | zero => intro _; simp [nmsAux]
  | succ k ih =>
    intro hk1
    have hk : k < (nmsAux faces t faces.length).length := hk1
    have hkeep : nmsKeep ((nmsAux faces t faces.length).map (fun i => faces.getD i dummyFace))
        t (List.range k) k = true := by
      rw [nmsKeep, List.all_eq_true]
      intro j hj
      have hjk : j < k := List.mem_range.mp hj
      have hiou : iou ((nmsAux faces t faces.length).map (fun i => faces.getD i dummyFace)) k j
          = iou faces ((nmsAux faces t faces.length).getD k 0)
              ((nmsAux faces t faces.length).getD j 0) := by
        simp only [iou]
        rw [getD_map_of_lt _ _ _ hk dummyFace 0,
          getD_map_of_lt _ _ _ (lt_trans hjk hk) dummyFace 0]
      simp only [hiou]
      have hg := nmsAux_guard faces t faces.length k j hjk hk
      simpa using hg
    have hstep : nmsAux ((nmsAux faces t faces.length).map (fun i => faces.getD i dummyFace))
        t (k + 1)
        = (if nmsKeep ((nmsAux faces t faces.length).map (fun i => faces.getD i dummyFace)) t
              (nmsAux ((nmsAux faces t faces.length).map (fun i => faces.getD i dummyFace)) t k) k
           then nmsAux ((nmsAux faces t faces.length).map (fun i => faces.getD i dummyFace)) t k
                  ++ [k]
           else nmsAux ((nmsAux faces t faces.length).map (fun i => faces.getD i dummyFace)) t k)
        := by
      simp only [nmsAux]
    rw [hstep, ih (le_of_lt hk), if_pos hkeep, List.range_succ]

/-- C9: applying the suppression engine to the sublist of candidates it
picked, with the same threshold, picks all of them unchanged. -/
theorem C9_nms_idempotent (faces : List FaceObject) (nmsThreshold : ℚ) :
    nmsSortedBboxes
        ((nmsSortedBboxes faces nmsThreshold).map (fun i => faces.getD i dummyFace))
        nmsThreshold
      = List.range (nmsSortedBboxes faces nmsThreshold).length := by
  simp only [nmsSortedBboxes, List.length_map]
  exact nmsAux_self_eval faces nmsThreshold _ le_rfl

/-- A rect of zero area has zero clamped self-intersection. -/
theorem interArea_self_of_rectArea_zero {r : Rect} (h : rectArea r = 0) :
    interArea r r = 0 := by
  have hself : interArea r r = max 0 (r.x1 - r.x0) * max 0 (r.y1 - r.y0) := by
    rw [interArea, min_self, max_self, min_self, max_self]
  rw [rectArea] at h
  rw [hself]
  rcases mul_eq_zero.mp h with h0 | h0 <;> simp [h0]

/-- C10: with a non-negative threshold, a candidate whose rect has zero area
and zero clamped intersection with every already-picked candidate is always
picked (the unguarded quotient is `0/0 = 0`, never above the threshold); in
particular arbitrarily many identical zero-area rects are all picked. -/
theorem C10_zero_area_kept :
    (∀ (faces : List FaceObject) (t : ℚ) (i : ℕ), 0 ≤ t → i < faces.length →
        rectArea (faces.getD i dummyFace).rect = 0 →
        (∀ j ∈ nmsAux faces t i,
          interArea (faces.getD i dummyFace).rect (faces.getD j dummyFace).rect = 0) →
        i ∈ nmsSortedBboxes faces t)
    ∧ (∀ (f : FaceObject) (n : ℕ) (t : ℚ), 0 ≤ t → rectArea f.rect = 0 →
        nmsSortedBboxes (List.replicate n f) t = List.range n) := by
  constructor
  · intro faces t i ht hi _ hinter
    have hkeep : nmsKeep faces t (nmsAux faces t i) i = true := by
      rw [nmsKeep, List.all_eq_true]
      intro j hj
      have h0 : iou faces i j = 0 := by
        simp only [iou]
        rw [hinter j hj, zero_div]
      simp [h0, not_lt.mpr ht]
    have hstep : i ∈ nmsAux faces t (i + 1) := by
      have heq : nmsAux faces t (i + 1) = nmsAux faces t i ++ [i] := by
        simp only [nmsAux]
        rw [if_pos hkeep]
      rw [heq]
      simp
    exact mem_nmsAux_of_le hstep hi
  · intro f n t ht harea
    have hinter := interArea_self_of_rectArea_zero harea
    have key : ∀ k, k ≤ n → nmsAux (List.replicate n f) t k = List.range k := by
      intro k
      induction k with
      | zero => intro _; simp [nmsAux]
      | succ k ih =>
        intro hk1
        have hk : k < n := hk1
        have hkeep : nmsKeep (List.replicate n f) t (List.range k) k = true := by
          rw [nmsKeep, List.all_eq_true]
          intro j hj
          have hjk : j < k := List.mem_range.mp hj
          have h0 : iou (List.replicate n f) k j = 0 := by
            simp only [iou]
            rw [getD_replicate_of_lt hk, getD_replicate_of_lt (by omega)]
            rw [hinter, zero_div]
          simp [h0, not_lt.mpr ht]
        have hstep : nmsAux (List.replicate n f) t (k + 1)
            = (if nmsKeep (List.replicate n f) t (nmsAux (List.replicate n f) t k) k
               then nmsAux (List.replicate n f) t k ++ [k]
               else nmsAux (List.replicate n f) t k) := by
          simp only [nmsAux]
        rw [hstep, ih (le_of_lt hk), if_pos hkeep, List.range_succ]
    simp only [nmsSortedBboxes, List.length_replicate]
    exact key n le_rfl

/-- C10 witness: one zero-area face is picked; three identical zero-area
faces are all picked. -/
theorem C10_witness :
    0 ∈ nmsSortedBboxes [dummyFace] 0
    ∧ nmsSortedBboxes (List.replicate 3 dummyFace) 0 = List.range 3 :=
  ⟨C10_zero_area_kept.1 [dummyFace] 0 0 le_rfl (by simp)
      (by norm_num [dummyFace, rectArea]) (by simp [nmsAux]),
    C10_zero_area_kept.2 dummyFace 3 0 le_rfl (by norm_num [dummyFace, rectArea])⟩

/-- C5: for every baseSize, non-empty list of positive ratios and list of
positive scales, `generateAnchors` returns `R×S` anchors, and the anchor at
index `i*S + j` is the box centered at `(baseSize/2, baseSize/2)` with
half-extents `rW*s/2`, `rH*s/2`, `rW = round(baseSize/sqrt ar)`,
`rH = round(rW*ar)`. -/
theorem C5_generateAnchors (jsSqrt : ℚ → ℚ) (baseSize : ℚ) (ratios scales : List ℚ)
    (i j : ℕ) (hne : ratios ≠ []) (hratios : ∀ a ∈ ratios, 0 < a)
    (hscales : ∀ s ∈ scales, 0 < s) (hi : i < ratios.length) (hj : j < scales.length) :
    (generateAnchors jsSqrt baseSize ratios scales).length
        = ratios.length * scales.length
    ∧ (generateAnchors jsSqrt baseSize ratios scales).getD
          (i * scales.length + j) ⟨0, 0, 0, 0⟩
        = (let cx := baseSize * (1/2)
           let cy := baseSize * (1/2)
           let ar := ratios.getD i 0
           let rW : ℤ := round (baseSize / jsSqrt ar)
           let rH : ℤ := round ((rW : ℚ) * ar)
           let s := scales.getD j 0
           let rsW := (rW : ℚ) * s * (1/2)
           let rsH := (rH : ℚ) * s * (1/2)
           (⟨cx - rsW, cy - rsH, cx + rsW, cy + rsH⟩ : Rect)) := by
  constructor
  · simp only [generateAnchors]
    exact length_flatMap_range_map _ _ _
  · simp only [generateAnchors]
    exact getD_flatMap_range_map _ hi hj _

/-- C5 witness: the theorem instantiated at `baseSize = 16`, `ratios = [1]`,
`scales = [32, 16]`, index `(0, 1)`, with `jsSqrt` constantly 1
(`Math.sqrt 1 = 1`). -/
theorem C5_witness :
    (generateAnchors (fun _ => 1) 16 [1] [32, 16]).length
        = [(1 : ℚ)].length * [(32 : ℚ), 16].length
    ∧ (generateAnchors (fun _ => 1) 16 [1] [32, 16]).getD
          (0 * [(32 : ℚ), 16].length + 1) ⟨0, 0, 0, 0⟩
        = (let cx := (16 : ℚ) * (1/2)
           let cy := (16 : ℚ) * (1/2)
           let ar := [(1 : ℚ)].getD 0 0
           let rW : ℤ := round ((16 : ℚ) / (fun (_ : ℚ) => (1 : ℚ)) ar)
           let rH : ℤ := round ((rW : ℚ) * ar)
           let s := [(32 : ℚ), 16].getD 1 0
           let rsW := (rW : ℚ) * s * (1/2)
           let rsH := (rH : ℚ) * s * (1/2)
           (⟨cx - rsW, cy - rsH, cx + rsW, cy + rsH⟩ : Rect)) :=
  C5_generateAnchors (fun _ => 1) 16 [1] [32, 16] 0 1 (by simp)
    (by norm_num) (by norm_num) (by simp) (by simp)

/-- For a lower threshold the per-cell emission list only grows. -/
theorem if_threshold_sublist {p1 p2 : ℚ} (hp : p1 ≤ p2) (prob : ℚ)
    (l : List FaceObject) :
    (if p2 ≤ prob then l else []).Sublist (if p1 ≤ prob then l else []) := by
  by_cases h2 : p2 ≤ prob
  · rw [if_pos h2, if_pos (le_trans hp h2)]
  · rw [if_neg h2]
    exact List.nil_sublist _

/-- C8: with the same input tensors, raising the probability threshold can
only shrink the decoded candidate list: the `t2`-candidates are a sublist
(hence a subset) of the `t1`-candidates, and the count never increases. -/
theorem C8_threshold_monotone (jsExp : ℚ → ℚ) (anchors : List Rect)
    (featStride : ℚ) (scoreT bboxT landmarkT : Tensor) (t1 t2 : ℚ) (ht : t1 < t2) :
    (generateProposals jsExp anchors featStride scoreT bboxT landmarkT t2).Sublist
        (generateProposals jsExp anchors featStride scoreT bboxT landmarkT t1)
    ∧ (generateProposals jsExp anchors featStride scoreT bboxT landmarkT t2)
        ⊆ (generateProposals jsExp anchors featStride scoreT bboxT landmarkT t1)
    ∧ (generateProposals jsExp anchors featStride scoreT bboxT landmarkT t2).length
        ≤ (generateProposals jsExp anchors featStride scoreT bboxT landmarkT t1).length := by
  have hsub : (generateProposals jsExp anchors featStride scoreT bboxT landmarkT t2).Sublist
      (generateProposals jsExp anchors featStride scoreT bboxT landmarkT t1) := by
    simp only [generateProposals]
    apply flatMap_sublist
    intro q _
    apply flatMap_sublist
    intro i _
    apply flatMap_sublist
    intro j _
    exact if_threshold_sublist (le_of_lt ht) _ _
  exact ⟨hsub, hsub.subset, hsub.length_le⟩

/-- C8 witness: the theorem instantiated at a 1×1 grid, one anchor and
thresholds `1/2 < 9/10`. -/
theorem C8_witness :
    (1/2 : ℚ) < 9/10
    ∧ ((generateProposals (fun _ => 1) [⟨0, 0, 16, 16⟩] 16 ⟨[1, 2, 1, 1], [0, 4/5]⟩
          ⟨[1, 4, 1, 1], List.replicate 4 0⟩ ⟨[1, 10, 1, 1], List.replicate 10 0⟩
          (9/10)).Sublist
        (generateProposals (fun _ => 1) [⟨0, 0, 16, 16⟩] 16 ⟨[1, 2, 1, 1], [0, 4/5]⟩
          ⟨[1, 4, 1, 1], List.replicate 4 0⟩ ⟨[1, 10, 1, 1], List.replicate 10 0⟩
          (1/2))
      ∧ (generateProposals (fun _ => 1) [⟨0, 0, 16, 16⟩] 16 ⟨[1, 2, 1, 1], [0, 4/5]⟩
          ⟨[1, 4, 1, 1], List.replicate 4 0⟩ ⟨[1, 10, 1, 1], List.replicate 10 0⟩
          (9/10))
        ⊆ (generateProposals (fun _ => 1) [⟨0, 0, 16, 16⟩] 16 ⟨[1, 2, 1, 1], [0, 4/5]⟩
          ⟨[1, 4, 1, 1], List.replicate 4 0⟩ ⟨[1, 10, 1, 1], List.replicate 10 0⟩
          (1/2))
      ∧ (generateProposals (fun _ => 1) [⟨0, 0, 16, 16⟩] 16 ⟨[1, 2, 1, 1], [0, 4/5]⟩
          ⟨[1, 4, 1, 1], List.replicate 4 0⟩ ⟨[1, 10, 1, 1], List.replicate 10 0⟩
          (9/10)).length
        ≤ (generateProposals (fun _ => 1) [⟨0, 0, 16, 16⟩] 16 ⟨[1, 2, 1, 1], [0, 4/5]⟩
          ⟨[1, 4, 1, 1], List.replicate 4 0⟩ ⟨[1, 10, 1, 1], List.replicate 10 0⟩
          (1/2)).length) :=
  ⟨by norm_num,
    C8_threshold_monotone (fun _ => 1) [⟨0, 0, 16, 16⟩] 16 ⟨[1, 2, 1, 1], [0, 4/5]⟩
      ⟨[1, 4, 1, 1], List.replicate 4 0⟩ ⟨[1, 10, 1, 1], List.replicate 10 0⟩
      (1/2) (9/10) (by norm_num)⟩

/-- C3 counterexample: on a stride invocation whose score buffer length (0)
does not match `numAnchors*2*w*h = 2`, the spec-modelled checked decoder
fails fast, but the source decoder returns a plain (empty) list — it
performs no shape validation and raises no error. -/
theorem C3_counterexample :
    generateProposalsChecked (fun _ => 1) [⟨0, 0, 16, 16⟩] 16 ⟨[1, 2, 1, 1], []⟩
        ⟨[1, 4, 1, 1], List.replicate 4 0⟩ ⟨[1, 10, 1, 1], List.replicate 10 0⟩ (3/4)
      = Except.error "output buffer length does not match numAnchors*channels*w*h"
    ∧ generateProposals (fun _ => 1) [⟨0, 0, 16, 16⟩] 16 ⟨[1, 2, 1, 1], []⟩
        ⟨[1, 4, 1, 1], List.replicate 4 0⟩ ⟨[1, 10, 1, 1], List.replicate 10 0⟩ (3/4)
      = [] := by
  constructor
  · simp [generateProposalsChecked]
  · norm_num [generateProposals]

/-- C3 (amended): the source decoder performs no shape validation and never
raises an error; when the score buffer is too short to contain any face
channel (length at most `numAnchors*w*h`) and the threshold is positive,
every out-of-range score read yields the default 0 and the decoder silently
returns no candidates instead of failing. -/
theorem C3_no_shape_check (jsExp : ℚ → ℚ) (anchors : List Rect) (featStride : ℚ)
    (scoreT bboxT landmarkT : Tensor) (t : ℚ) (ht : 0 < t)
    (hshort : scoreT.data.length
      ≤ anchors.length * (bboxT.dims.getD 3 0 * bboxT.dims.getD 2 0)) :
    generateProposals jsExp anchors featStride scoreT bboxT landmarkT t = [] := by
  simp only [generateProposals]
  apply flatMap_eq_nil
  intro q _
  apply flatMap_eq_nil
  intro i _
  apply flatMap_eq_nil
  intro j _
  have hidx : scoreT.data.length
      ≤ (q + anchors.length) * (bboxT.dims.getD 3 0 * bboxT.dims.getD 2 0)
        + (i * bboxT.dims.getD 3 0 + j) := by
    calc scoreT.data.length
        ≤ anchors.length * (bboxT.dims.getD 3 0 * bboxT.dims.getD 2 0) := hshort
      _ ≤ (q + anchors.length) * (bboxT.dims.getD 3 0 * bboxT.dims.getD 2 0) :=
          Nat.mul_le_mul_right _ (Nat.le_add_left _ _)
      _ ≤ _ := Nat.le_add_right _ _
  rw [getD_eq_default_of_ge hidx, if_neg (not_le.mpr ht)]

/-- C3 witness: the amended theorem instantiated at the mismatched input of
the counterexample. -/
theorem C3_witness :
    (0 : ℚ) < 3/4
    ∧ (Tensor.mk [1, 2, 1, 1] ([] : List ℚ)).data.length
        ≤ [(⟨0, 0, 16, 16⟩ : Rect)].length
          * ((Tensor.mk [1, 4, 1, 1] (List.replicate 4 0)).dims.getD 3 0
            * (Tensor.mk [1, 4, 1, 1] (List.replicate 4 0)).dims.getD 2 0)
    ∧ generateProposals (fun _ => 1) [⟨0, 0, 16, 16⟩] 16 ⟨[1, 2, 1, 1], []⟩
        ⟨[1, 4, 1, 1], List.replicate 4 0⟩ ⟨[1, 10, 1, 1], List.replicate 10 0⟩ (3/4)
      = [] :=
  ⟨by norm_num, by simp,
    C3_no_shape_check (fun _ => 1) [⟨0, 0, 16, 16⟩] 16 ⟨[1, 2, 1, 1], []⟩
      ⟨[1, 4, 1, 1], List.replicate 4 0⟩ ⟨[1, 10, 1, 1], List.replicate 10 0⟩ (3/4)
      (by norm_num) (by simp)⟩

/-- C7: the rescale step maps each rect coordinate to
`clamp(coord, 0, dimension-1) / scale` and each landmark coordinate to
`coord / scale` without clamping; consequently, for `scale = 1` and a rect
fully inside `[0, width-1]×[0, height-1]`, rescaling is a no-op. -/
theorem C7_rescale (width height : ℕ) (obj : FaceObject) :
    (∀ scale : ℚ, rescaleFace width height scale obj
      = { rect := ⟨max (min obj.rect.x0 ((width : ℚ) - 1)) 0 / scale,
                   max (min obj.rect.y0 ((height : ℚ) - 1)) 0 / scale,
                   max (min obj.rect.x1 ((width : ℚ) - 1)) 0 / scale,
                   max (min obj.rect.y1 ((height : ℚ) - 1)) 0 / scale⟩
          landmarks := obj.landmarks.map (fun l => (l.1 / scale, l.2 / scale))
          prob := obj.prob })
    ∧ ((0 ≤ obj.rect.x0 ∧ obj.rect.x0 ≤ (width : ℚ) - 1
        ∧ 0 ≤ obj.rect.y0 ∧ obj.rect.y0 ≤ (height : ℚ) - 1
        ∧ 0 ≤ obj.rect.x1 ∧ obj.rect.x1 ≤ (width : ℚ) - 1
        ∧ 0 ≤ obj.rect.y1 ∧ obj.rect.y1 ≤ (height : ℚ) - 1) →
      rescaleFace width height 1 obj = obj) := by
  constructor
  · intro scale
    rfl
  · rintro ⟨h1, h2, h3, h4, h5, h6, h7, h8⟩
    have e1 : max (min obj.rect.x0 ((width : ℚ) - 1)) 0 = obj.rect.x0 := by
      rw [min_eq_left h2, max_eq_left h1]
    have e2 : max (min obj.rect.y0 ((height : ℚ) - 1)) 0 = obj.rect.y0 := by
      rw [min_eq_left h4, max_eq_left h3]
    have e3 : max (min obj.rect.x1 ((width : ℚ) - 1)) 0 = obj.rect.x1 := by
      rw [min_eq_left h6, max_eq_left h5]
    have e4 : max (min obj.rect.y1 ((height : ℚ) - 1)) 0 = obj.rect.y1 := by
      rw [min_eq_left h8, max_eq_left h7]
    simp [rescaleFace, e1, e2, e3, e4, div_one]

/-- C7 witness: a rect inside the bounds of a 2×2 network is unchanged by
rescaling at scale 1. -/
theorem C7_witness :
    rescaleFace 2 2 1 ⟨⟨0, 0, 1, 1⟩, [(5, 7)], 9/10⟩ = ⟨⟨0, 0, 1, 1⟩, [(5, 7)], 9/10⟩ :=
  (C7_rescale 2 2 ⟨⟨0, 0, 1, 1⟩, [(5, 7)], 9/10⟩).2 (by norm_num)

/-- C4: `detect` raises a precondition error exactly when the input buffer's
width or height differs from the configured resolution, and in that case it
returns the error message alone — nothing after the dimension check is
reached. -/
theorem C4_dims_precondition (r : Retinaface) (jsExp jsSqrt : ℚ → ℚ)
    (img : ImageData) (scale probThreshold nmsThreshold : ℚ) :
    ((∃ msg, r.detect jsExp jsSqrt img scale probThreshold nmsThreshold
        = Except.error msg)
      ↔ (img.width ≠ r.width ∨ img.height ≠ r.height))
    ∧ ((img.width ≠ r.width ∨ img.height ≠ r.height) →
        r.detect jsExp jsSqrt img scale probThreshold nmsThreshold
          = Except.error
              ("image should be " ++ toString r.width ++ "x" ++ toString r.height)) := by
  by_cases hc : img.width ≠ r.width ∨ img.height ≠ r.height
  · refine ⟨⟨fun _ => hc,
      fun _ => ⟨"image should be " ++ toString r.width ++ "x" ++ toString r.height, ?_⟩⟩,
      fun _ => ?_⟩
    · simp [Retinaface.detect, hc]
    · simp [Retinaface.detect, hc]
  · refine ⟨?_, fun h => absurd h hc⟩
    simp [Retinaface.detect, hc]

/-- C4 witness: a 2×2 image against a 1×1 detector fails with the
precondition error message. -/
theorem C4_witness :
    rOk.detect (fun _ => 1) (fun _ => 1) imgBad 1 (3/4) (1/2)
      = Except.error "image should be 1x1" :=
  (C4_dims_precondition rOk (fun _ => 1) (fun _ => 1) imgBad 1 (3/4) (1/2)).2
    (Or.inl (by decide))

/-- C6: with the single anchor `(0,0,16,16)`, stride 16, a 1×1 grid, face
score `9/10` (at or above the 3/4 threshold) and bbox deltas `(0,0,0,0)`,
the decoder produces exactly one candidate whose rect is the anchor
unchanged, decoded about center `(8,8)`. -/
theorem C6_decode_exactness (jsExp : ℚ → ℚ) (hexp : jsExp 0 = 1) :
    generateProposals jsExp [⟨0, 0, 16, 16⟩] 16 ⟨[1, 2, 1, 1], [1/10, 9/10]⟩
        ⟨[1, 4, 1, 1], [0, 0, 0, 0]⟩ ⟨[1, 10, 1, 1], List.replicate 10 0⟩ (3/4)
      = [⟨⟨0, 0, 16, 16⟩, [(8, 8), (8, 8), (8, 8), (8, 8), (8, 8)], 9/10⟩] := by
  norm_num [generateProposals, hexp, List.range_succ]

/-- C6 witness: the theorem instantiated at the constant-one model of
`Math.exp` (exact at 0, since `Math.exp 0 = 1`). -/
theorem C6_witness :
    generateProposals (fun _ => 1) [⟨0, 0, 16, 16⟩] 16 ⟨[1, 2, 1, 1], [1/10, 9/10]⟩
        ⟨[1, 4, 1, 1], [0, 0, 0, 0]⟩ ⟨[1, 10, 1, 1], List.replicate 10 0⟩ (3/4)
      = [⟨⟨0, 0, 16, 16⟩, [(8, 8), (8, 8), (8, 8), (8, 8), (8, 8)], 9/10⟩] :=
  C6_decode_exactness (fun _ => 1) rfl

/-- A defaulted read is either a list member or the default. -/
theorem getD_mem_or_default {α : Type} (l : List α) (n : ℕ) (d : α) :
    l.getD n d ∈ l ∨ l.getD n d = d := by
  rcases Nat.lt_or_ge n l.length with h | h
  · exact Or.inl (getD_mem_of_lt h d)
  · exact Or.inr (getD_eq_default_of_ge h d)

/-- Every decoded candidate's prob passed the threshold test and is a value
read from the score buffer (or the out-of-range default 0). -/
theorem prob_of_mem_generateProposals {jsExp : ℚ → ℚ} {anchors : List Rect}
    {featStride : ℚ} {scoreT bboxT landmarkT : Tensor} {t : ℚ} {f : FaceObject}
    (hf : f ∈ generateProposals jsExp anchors featStride scoreT bboxT landmarkT t) :
    t ≤ f.prob ∧ (f.prob ∈ scoreT.data ∨ f.prob = 0) := by
  simp only [generateProposals] at hf
  rw [List.mem_flatMap] at hf
  obtain ⟨q, _, hf⟩ := hf
  rw [List.mem_flatMap] at hf
  obtain ⟨i, _, hf⟩ := hf
  rw [List.mem_flatMap] at hf
  obtain ⟨j, _, hf⟩ := hf
  split at hf
  next hcond =>
    rw [List.mem_singleton] at hf
    subst hf
    exact ⟨hcond, getD_mem_or_default _ _ _⟩
  next => simp at hf

/-- The same, phrased for a stride invocation: the score buffer is the
stride-named cls tensor. -/
theorem prob_of_mem_processStride {jsExp jsSqrt : ℚ → ℚ} {results : String → Tensor}
    {t : ℚ} {stride : ℕ} {scales : List ℚ} {f : FaceObject}
    (hf : f ∈ processStride jsExp jsSqrt results t stride scales) :
    t ≤ f.prob
    ∧ (f.prob ∈ (results ("face_rpn_cls_prob_reshape_stride" ++ toString stride)).data
        ∨ f.prob = 0) := by
  simp only [processStride] at hf
  exact prob_of_mem_generateProposals hf

/-- C2 (amended): every candidate a successful `detect` returns has
`prob ≥ probThreshold`; if additionally every value in the session's three
stride cls tensors is at most 1, then `prob ≤ 1` as well.  (Without that
assumption the upper bound can fail — see the counterexample.) -/
theorem C2_prob_range (r : Retinaface) (jsExp jsSqrt : ℚ → ℚ) (img : ImageData)
    (scale probThreshold nmsThreshold : ℚ) (faces : List FaceObject) (f : FaceObject)
    (hdet : r.detect jsExp jsSqrt img scale probThreshold nmsThreshold = Except.ok faces)
    (hf : f ∈ faces) :
    probThreshold ≤ f.prob
    ∧ ((∀ stride ∈ [32, 16, 8],
          ∀ x ∈ (r.session ⟨[1, 3, r.height, r.width], nchwData img r.width r.height⟩
            ("face_rpn_cls_prob_reshape_stride" ++ toString stride)).data, x ≤ 1) →
        f.prob ≤ 1) := by
  simp only [Retinaface.detect] at hdet
  split at hdet
  · exact absurd hdet (by simp)
  · rw [Except.ok.injEq] at hdet
    subst hdet
    simp only [detectBody] at hf
    rw [List.mem_map] at hf
    obtain ⟨idx, hpick, hrescale⟩ := hf
    have hprob : f.prob
        = ((sortByProbDesc (detectProposals r jsExp jsSqrt img probThreshold)).getD idx
            dummyFace).prob := by
      rw [← hrescale]
      rfl
    have hlt : idx < (sortByProbDesc (detectProposals r jsExp jsSqrt img probThreshold)).length :=
      mem_nmsSortedBboxes_lt hpick
    have hmem := getD_mem_of_lt hlt dummyFace
    rw [mem_sortByProbDesc] at hmem
    simp only [detectProposals] at hmem
    rw [List.mem_append] at hmem
    have main : probThreshold
          ≤ ((sortByProbDesc (detectProposals r jsExp jsSqrt img probThreshold)).getD idx
              dummyFace).prob
        ∧ (((sortByProbDesc (detectProposals r jsExp jsSqrt img probThreshold)).getD idx
              dummyFace).prob = 0
          ∨ ∃ stride ∈ [32, 16, 8],
              ((sortByProbDesc (detectProposals r jsExp jsSqrt img probThreshold)).getD idx
                dummyFace).prob
                ∈ (r.session ⟨[1, 3, r.height, r.width], nchwData img r.width r.height⟩
                    ("face_rpn_cls_prob_reshape_stride" ++ toString stride)).data) := by
      rcases hmem with hmem | h8
      · rw [List.mem_append] at hmem
        rcases hmem with h32 | h16
        · have hp := prob_of_mem_processStride h32
          exact ⟨hp.1, hp.2.elim (fun h => Or.inr ⟨32, by simp, h⟩) Or.inl⟩
        · have hp := prob_of_mem_processStride h16
          exact ⟨hp.1, hp.2.elim (fun h => Or.inr ⟨16, by simp, h⟩) Or.inl⟩
      · have hp := prob_of_mem_processStride h8
        exact ⟨hp.1, hp.2.elim (fun h => Or.inr ⟨8, by simp, h⟩) Or.inl⟩
    refine ⟨hprob ▸ main.1, fun hbound => ?_⟩
    rw [hprob]
    rcases main.2 with h0 | ⟨stride, hs, hmemd⟩
    · rw [h0]
      norm_num
    · exact hbound stride hs _ hmemd

/-- The two stride-32 anchors of the shipped configuration, evaluated. -/
theorem anchors32_eval :
    generateAnchors (fun _ => (1 : ℚ)) 16 [1] [32, 16]
      = [⟨-248, -248, 264, 264⟩, ⟨-120, -120, 136, 136⟩] := by
  norm_num [generateAnchors, List.range_succ, round_eq]

/-- Stride-32 decode over `genSession v`: one candidate with prob `v`. -/
theorem genSession_proposals32 (v : ℚ) (hv : 3/4 ≤ v) (T : Tensor) :
    processStride (fun _ => 1) (fun _ => 1) (genSession v T) (3/4) 32 [32, 16]
      = [⟨⟨-248, -248, 264, 264⟩, [(8, 8), (8, 8), (8, 8), (8, 8), (8, 8)], v⟩] := by
  have hn1 : ("face_rpn_cls_prob_reshape_stride" ++ toString (32 : ℕ))
      = "face_rpn_cls_prob_reshape_stride32" := rfl
  have hn2 : ("face_rpn_bbox_pred_stride" ++ toString (32 : ℕ))
      = "face_rpn_bbox_pred_stride32" := rfl
  have hn3 : ("face_rpn_landmark_pred_stride" ++ toString (32 : ℕ))
      = "face_rpn_landmark_pred_stride32" := rfl
  have hc : genSession v T "face_rpn_cls_prob_reshape_stride32"
      = ⟨[1, 4, 1, 1], [0, 0, v, 0]⟩ := by simp [genSession]
  have hb : genSession v T "face_rpn_bbox_pred_stride32"
      = ⟨[1, 8, 1, 1], List.replicate 8 0⟩ := by simp [genSession]
  have hl : genSession v T "face_rpn_landmark_pred_stride32"
      = ⟨[1, 20, 1, 1], List.replicate 20 0⟩ := by simp [genSession]
  simp only [processStride, hn1, hn2, hn3, hc, hb, hl]
  rw [anchors32_eval]
  norm_num [generateProposals, List.range_succ, hv]

/-- Stride-16 decode over `genSession v`: the empty tensors give a 0×0 grid
and no candidates. -/
theorem genSession_proposals16 (v : ℚ) (T : Tensor) :
    processStride (fun _ => 1) (fun _ => 1) (genSession v T) (3/4) 16 [8, 4] = [] := by
  have hn4 : ("face_rpn_cls_prob_reshape_stride" ++ toString (16 : ℕ))
      = "face_rpn_cls_prob_reshape_stride16" := rfl
  have hn5 : ("face_rpn_bbox_pred_stride" ++ toString (16 : ℕ))
      = "face_rpn_bbox_pred_stride16" := rfl
  have hn6 : ("face_rpn_landmark_pred_stride" ++ toString (16 : ℕ))
      = "face_rpn_landmark_pred_stride16" := rfl
  have hc : genSession v T "face_rpn_cls_prob_reshape_stride16" = ⟨[], []⟩ := by
    simp [genSession]
  have hb : genSession v T "face_rpn_bbox_pred_stride16" = ⟨[], []⟩ := by
    simp [genSession]
  have hl : genSession v T "face_rpn_landmark_pred_stride16" = ⟨[], []⟩ := by
    simp [genSession]
  simp only [processStride, hn4, hn5, hn6, hc, hb, hl]
  simp only [generateProposals]
  apply flatMap_eq_nil
  intro q _
  simp

/-- Stride-8 decode over `genSession v`: likewise empty. -/
theorem genSession_proposals8 (v : ℚ) (T : Tensor) :
    processStride (fun _ => 1) (fun _ => 1) (genSession v T) (3/4) 8 [2, 1] = [] := by
  have hn7 : ("face_rpn_cls_prob_reshape_stride" ++ toString (8 : ℕ))
      = "face_rpn_cls_prob_reshape_stride8" := rfl
  have hn8 : ("face_rpn_bbox_pred_stride" ++ toString (8 : ℕ))
      = "face_rpn_bbox_pred_stride8" := rfl
  have hn9 : ("face_rpn_landmark_pred_stride" ++ toString (8 : ℕ))
      = "face_rpn_landmark_pred_stride8" := rfl
  have hc : genSession v T "face_rpn_cls_prob_reshape_stride8" = ⟨[], []⟩ := by
    simp [genSession]
  have hb : genSession v T "face_rpn_bbox_pred_stride8" = ⟨[], []⟩ := by
    simp [genSession]
  have hl : genSession v T "face_rpn_landmark_pred_stride8" = ⟨[], []⟩ := by
    simp [genSession]
  simp only [processStride, hn7, hn8, hn9, hc, hb, hl]
  simp only [generateProposals]
  apply flatMap_eq_nil
  intro q _
  simp

/-- Full run of `detect` over `genSession v` for any passing score `v`. -/
theorem genSession_detect (v : ℚ) (hv : 3/4 ≤ v) :
    (Retinaface.mk (genSession v) 1 1).detect (fun _ => 1) (fun _ => 1) imgOk 1 (3/4) (1/2)
      = Except.ok [⟨⟨0, 0, 0, 0⟩, [(8, 8), (8, 8), (8, 8), (8, 8), (8, 8)], v⟩] := by
  rw [Retinaface.detect, if_neg (by norm_num [imgOk])]
  simp only [detectBody, detectProposals]
  rw [genSession_proposals32 v hv _, genSession_proposals16 v _,
    genSession_proposals8 v _]
  norm_num [sortByProbDesc, insertDesc, nmsSortedBboxes, nmsAux, nmsKeep,
    rescaleFace, dummyFace]

/-- C2 counterexample: the claim's upper bound `prob ≤ 1` fails on the code.
With a session whose stride-32 face score is 2, `detect` succeeds and
returns a candidate with `prob = 2 > 1` (the decoder only checks
`prob ≥ threshold`; no upper bound is enforced anywhere). -/
theorem C2_counterexample :
    rBig.detect (fun _ => 1) (fun _ => 1) imgOk 1 (3/4) (1/2) = Except.ok [bigFace]
    ∧ 1 < bigFace.prob := by
  constructor
  · have h := genSession_detect 2 (by norm_num)
    simpa [rBig, bigSession, bigFace] using h
  · norm_num [bigFace]

/-- C2 witness: the amended theorem instantiated on a run whose engine
scores are all at most 1; the returned candidate's prob lies in
`[3/4, 1]`. -/
theorem C2_witness : (3/4 : ℚ) ≤ okFace.prob ∧ okFace.prob ≤ 1 := by
  have hdet : rOk.detect (fun _ => 1) (fun _ => 1) imgOk 1 (3/4) (1/2)
      = Except.ok [okFace] := by
    have h := genSession_detect (9/10) (by norm_num)
    simpa [rOk, okSession, okFace] using h
  have h := C2_prob_range rOk (fun _ => 1) (fun _ => 1) imgOk 1 (3/4) (1/2)
    [okFace] okFace hdet (by simp)
  refine ⟨h.1, h.2 ?_⟩
  intro stride hs x hx
  fin_cases hs
  · rw [show ("face_rpn_cls_prob_reshape_stride" ++ toString (32 : ℕ))
        = "face_rpn_cls_prob_reshape_stride32" from rfl] at hx
    simp only [rOk, okSession, genSession, if_pos, List.mem_cons,
      List.not_mem_nil, or_false] at hx
    rcases hx with h' | h' | h' | h' <;> norm_num [h']
  · rw [show ("face_rpn_cls_prob_reshape_stride" ++ toString (16 : ℕ))
        = "face_rpn_cls_prob_reshape_stride16" from rfl] at hx
    simp [rOk, okSession, genSession] at hx
  · rw [show ("face_rpn_cls_prob_reshape_stride" ++ toString (8 : ℕ))
        = "face_rpn_cls_prob_reshape_stride8" from rfl] at hx
    simp [rOk, okSession, genSession] at hx
